import Mathlib

/-!
Shallow embedding of the core of the Flint scripting-language implementation
(tree-walk interpreter, resolver, environments, bytecode chunk writer and
scanner), together with theorems settling the design-specification claims.

Conventions used throughout:
* C++ `double` is modelled by `Rat`; the claims under study depend only on
  the ordering and the zero test of numbers.
* `std::shared_ptr` object values are modelled by dedicated constructors;
  the claims under study depend only on the variant held, never on pointer
  identity.
* thrown C++ exceptions are modelled by `Except` results or explicit signal
  values.
* RuntimeError message texts are transcribed without the surrounding quote
  characters and ANSI colour escape sequences of the source.
-/

namespace Flint

/-- A thrown C++ RuntimeError, reduced to its message text. -/
structure RuntimeErr where
  message : String
deriving Repr, DecidableEq

/-- The LiteralValue variant of the tree-walk iteration
(Tree Walk Interpreter sources): monostate, double, raw std::string,
nullptr, bool, shared FlintCallable, FlintClass, FlintInstance, FlintArray
and shared FlintString.  String payloads are kept where a claim inspects
them; other object variants carry only identifying data. -/
inductive Value where
  | nothing
  | null
  | num (x : Rat)
  | str (s : String)
  | bool (b : Bool)
  | callable
  | flintClass (name : String)
  | instanceObj (className : String)
  | array (elements : List Value)
  | flintString (s : String)
deriving Repr

/-- The four comparison operator tokens LESS, LESS_EQUAL, GREATER and
GREATER_EQUAL. -/
inductive CompOp where
  | less
  | lessEqual
  | greater
  | greaterEqual
deriving Repr, DecidableEq

/-- Lexicographic strict order on strings, as produced by the C++
std::string relational operators (byte-wise lexicographic comparison;
on UTF-8 text this agrees with the code-point order used by String.lt). -/
def strLtB (a b : String) : Bool := decide (a < b)

/-- The comparison cases of the tree-walk
Evaluator::operator()(const Binary&) switch: each operator first tests
whether both operands hold the C++ double alternative, then whether both
hold the raw std::string alternative, and otherwise throws a RuntimeError
whose message is the (still empty) local string `message`. -/
def compBinary (op : CompOp) (left right : Value) : Except RuntimeErr Value :=
  match op with
  | .greater =>
    match left, right with
    | .num a, .num b => .ok (.bool (decide (b < a)))
    | .str a, .str b => .ok (.bool (strLtB b a))
    | _, _ => .error ⟨""⟩
  | .greaterEqual =>
    match left, right with
    | .num a, .num b => .ok (.bool (decide (b ≤ a)))
    | .str a, .str b => .ok (.bool (!(strLtB a b)))
    | _, _ => .error ⟨""⟩
  | .less =>
    match left, right with
    | .num a, .num b => .ok (.bool (decide (a < b)))
    | .str a, .str b => .ok (.bool (strLtB a b))
    | _, _ => .error ⟨""⟩
  | .lessEqual =>
    match left, right with
    | .num a, .num b => .ok (.bool (decide (a ≤ b)))
    | .str a, .str b => .ok (.bool (!(strLtB b a)))
    | _, _ => .error ⟨""⟩

/-- The tree-walk Evaluator::operator()(const Literal&): a literal holding
the raw std::string alternative is wrapped into a freshly allocated shared
FlintString object; every other literal value is returned unchanged. -/
def evalLiteral : Value → Value
  | .str s => .flintString s
  | v => v

/-- Evaluation of a Binary comparison expression whose two operands are
Literal expressions: both operand literals are evaluated first, then the
comparison switch runs on the resulting values. -/
def evalCompareOfLiterals (op : CompOp) (l r : Value) : Except RuntimeErr Value :=
  compBinary op (evalLiteral l) (evalLiteral r)

/-- The boolean ordering of two numbers under a comparison operator, as the
specification words it. -/
def numOrder (op : CompOp) (a b : Rat) : Bool :=
  match op with
  | .less => decide (a < b)
  | .lessEqual => decide (a ≤ b)
  | .greater => decide (b < a)
  | .greaterEqual => decide (b ≤ a)

/-- The boolean lexicographic ordering of two strings under a comparison
operator, as the specification words it. -/
def strOrder (op : CompOp) (a b : String) : Bool :=
  match op with
  | .less => strLtB a b
  | .lessEqual => !(strLtB b a)
  | .greater => strLtB b a
  | .greaterEqual => !(strLtB a b)

/-- Whether both values hold the double alternative. -/
def bothNum : Value → Value → Bool
  | .num _, .num _ => true
  | _, _ => false

/-- Whether both values hold the raw std::string alternative. -/
def bothRawStr : Value → Value → Bool
  | .str _, .str _ => true
  | _, _ => false

/-- The tree-walk Evaluator::isTruthy visitor: monostate and nullptr are
false, bool is itself, double tests against 0.0, a raw std::string tests
non-emptiness, a shared FlintCallable tests pointer non-nullness (every
callable value the interpreter builds is non-null), and every other
variant, in particular shared FlintString, FlintArray, FlintClass and
FlintInstance objects, falls into the final fallback returning true. -/
def isTruthy : Value → Bool
  | .nothing => false
  | .null => false
  | .bool b => b
  | .num x => decide (x ≠ 0)
  | .str s => !(s.isEmpty)
  | .callable => true
  | .flintClass _ => true
  | .instanceObj _ => true
  | .array _ => true
  | .flintString _ => true

/-- The resolver FunctionType enumeration (NONE, FUNCTION, LAMBDA, METHOD,
INITIALIZER). -/
inductive FunctionType where
  | none
  | function
  | lambda
  | method
  | initMethod
deriving Repr, DecidableEq

/-- The two diagnostics Resolver::operator()(const ReturnStmt&) can
report. -/
inductive ReturnDiag where
  | returnOutsideFunction
  | returnFromInit
deriving Repr, DecidableEq

/-- Resolver::operator()(const ReturnStmt&): reports a diagnostic when
currentFunction is NONE, and a diagnostic when currentFunction is
INITIALIZER.  `hasValue` records whether stmt.val is non-null; the source
inspects stmt.val only to resolve the value expression afterwards, so
neither diagnostic test depends on it. -/
def resolveReturnStmt (currentFunction : FunctionType) (_hasValue : Bool) :
    List ReturnDiag :=
  (if currentFunction = .none then [ReturnDiag.returnOutsideFunction] else []) ++
  (if currentFunction = .initMethod then [ReturnDiag.returnFromInit] else [])

/-- The function type the resolver assigns to a class method in
Resolver::operator()(const ClassStmt&): METHOD, or INITIALIZER when the
method is named init. -/
def methodFunctionType (name : String) : FunctionType :=
  if name = "init" then .initMethod else .method

/-- Lookup in the values map of an environment
(std::unordered_map.count followed by operator[] access). -/
def lookupAssoc {α : Type} : List (String × α) → String → Option α
  | [], _ => Option.none
  | (k, v) :: rest, name => if k = name then some v else lookupAssoc rest name

/-- Map update values[name] = v: replaces the existing entry, or inserts a
new one when the name is absent. -/
def setAssoc {α : Type} : List (String × α) → String → α → List (String × α)
  | [], name, v => [(name, v)]
  | (k, w) :: rest, name, v =>
    if k = name then (k, v) :: rest else (k, w) :: setAssoc rest name v

/-- An Environment: its values map together with the optional enclosing
environment reached through the `enclosing` shared pointer. -/
inductive Env where
  | root (values : List (String × Value))
  | child (values : List (String × Value)) (enclosing : Env)

/-- The values map of an environment. -/
def Env.values : Env → List (String × Value)
  | .root vs => vs
  | .child vs _ => vs

/-- Replace the values map of an environment, keeping its enclosing
chain. -/
def Env.withValues : Env → List (String × Value) → Env
  | .root _, vs => .root vs
  | .child _ enc, vs => .child vs enc

/-- Environment::define: values[name] = value in the current scope,
without touching enclosing scopes. -/
def Env.define (env : Env) (name : String) (v : Value) : Env :=
  env.withValues (setAssoc env.values name v)

/-- The test Environment::get applies to a found binding: whether it holds
the nullptr or the monostate alternative. -/
def isUninitSentinel : Value → Bool
  | .null => true
  | .nothing => true
  | _ => false

/-- Environment::get: if the current scope binds the name, a binding that
holds nullptr or monostate raises a RuntimeError and any other binding is
returned; otherwise the enclosing scopes are searched recursively, and a
miss at the outermost scope raises a RuntimeError. -/
def Env.get : Env → String → Except RuntimeErr Value
  | .root vs, name =>
    match lookupAssoc vs name with
    | some v =>
      if isUninitSentinel v then
        .error ⟨"Variable " ++ name ++ " has no value assigned to it."⟩
      else .ok v
    | Option.none => .error ⟨"Unknown variable " ++ name ++ "."⟩
  | .child vs enc, name =>
    match lookupAssoc vs name with
    | some v =>
      if isUninitSentinel v then
        .error ⟨"Variable " ++ name ++ " has no value assigned to it."⟩
      else .ok v
    | Option.none => enc.get name

/-- Environment::assign: writes the first scope (walking outward) that
binds the name and raises a RuntimeError when no scope binds it.  The
updated environment chain is returned. -/
def Env.assign : Env → String → Value → Except RuntimeErr Env
  | .root vs, name, v =>
    if (lookupAssoc vs name).isSome then .ok (.root (setAssoc vs name v))
    else .error ⟨"Undefined variable " ++ name ++ "."⟩
  | .child vs enc, name, v =>
    if (lookupAssoc vs name).isSome then .ok (.child (setAssoc vs name v) enc)
    else (enc.assign name v).map (fun e => Env.child vs e)

/-- The FlintArray pop built-in: given the array contents and the call
arguments, returns the array contents after the call together with the
call result.  A non-empty argument list and an empty array each raise a
RuntimeError before any mutation; otherwise the last element is removed
and returned. -/
def flintArrayPop (elements : List Value) (args : List Value) :
    List Value × Except RuntimeErr Value :=
  match args with
  | _ :: _ => (elements, .error ⟨"pop() takes no arguments."⟩)
  | [] =>
    match elements with
    | [] => ([], .error ⟨"Cannot pop from empty array."⟩)
    | x :: xs => ((x :: xs).dropLast, .ok ((x :: xs).getLast (by simp)))

/-- OpCode::OP_CONSTANT of the bytecode chunk format. -/
def opConstant : Nat := 0

/-- OpCode::OP_CONSTANT_LONG of the bytecode chunk format. -/
def opConstantLong : Nat := 1

/-- Chunk::writeConstant: the bytes appended for a constant whose pool
index is i.  An index below 256 is emitted as OP_CONSTANT with the index
byte; otherwise OP_CONSTANT_LONG is emitted followed by the three operand
bytes the source computes with LEFT shifts
(i << 0) & 0xFF, (i << 8) & 0xFF and (i << 16) & 0xFF, transcribed
exactly. -/
def writeConstantBytes (i : Nat) : List Nat :=
  if i < 256 then [opConstant, i % 256]
  else [opConstantLong, (i <<< 0) % 256, (i <<< 8) % 256, (i <<< 16) % 256]

/-- Disassembler::longConstantInstruction operand decoding:
b0 | (b1 << 8) | (b2 << 16). -/
def decodeLongOperand (b0 b1 b2 : Nat) : Nat :=
  b0 ||| (b1 <<< 8) ||| (b2 <<< 16)

/-- The little-endian 24-bit operand bytes the specification intends
writeConstant to emit: low, middle and high byte of the index. -/
def specLongBytes (i : Nat) : List Nat :=
  [i % 256, (i >>> 8) % 256, (i >>> 16) % 256]

/-- The double-quote character. -/
def dq : Char := Char.ofNat 34

/-- The backslash character. -/
def bsl : Char := Char.ofNat 92

/-- The newline character. -/
def nl : Char := Char.ofNat 10

/-- The outcome of Scanner::string(): the STRING token value it emits via
addToken, if any, and the scan errors it reports. -/
structure StringScanOut where
  token : Option String
  errors : List String
deriving Repr, DecidableEq

/-- The loop of Scanner::string(), entered after the opening quote was
consumed by scanToken.  `prev` is the character most recently consumed
(the opening quote itself on entry), `value` the accumulated literal text
and `rest` the remaining source.  The post-loop check of the source is
`if (isAtEnd() && source[current - 1] != opening-quote) report error`;
when the loop consumed every remaining character, source[current - 1] is
exactly the last consumed character, carried here in `prev`. -/
def stringLoop : Char → List Char → List Char → StringScanOut
  | prev, value, [] =>
    if prev = dq then { token := some (String.mk value), errors := [] }
    else { token := Option.none, errors := ["Unterminated string."] }
  | _, value, c :: rest =>
    if c = dq then { token := some (String.mk value), errors := [] }
    else if c = bsl then
      match rest with
      | [] => { token := Option.none, errors := ["Unterminated string."] }
      | n :: rest2 =>
        if n = 'n' then stringLoop n (value ++ [nl]) rest2
        else if n = 't' then stringLoop n (value ++ [Char.ofNat 9]) rest2
        else if n = 'r' then stringLoop n (value ++ [Char.ofNat 13]) rest2
        else if n = dq then stringLoop n (value ++ [dq]) rest2
        else if n = bsl then stringLoop n (value ++ [bsl]) rest2
        else
          { token := Option.none,
            errors := ["Invalid escape: " ++ String.mk [bsl, n]] }
    else if c = nl then
      { token := Option.none,
        errors := ["Unterminated string (newline encountered)."] }
    else stringLoop c (value ++ [c]) rest

/-- Scanner::string() as invoked from scanToken on a double quote: the
opening quote has just been consumed, so it is the previous character and
the accumulated value is empty. -/
def scanString (rest : List Char) : StringScanOut :=
  stringLoop dq [] rest

/-!
Embedding of the statement interpreter (src/src/Interpreter/Interpreter.cpp
with its Evaluator).  Environments live on an explicit heap of environment
records addressed by allocation index, mirroring the shared_ptr graph; the
interpreter state carries the current-environment pointer, the globals
pointer and the isInsideLoop flag.  Exceptions (BreakException,
ContinueException, ReturnException, RuntimeError) are modelled as signal
values, and recursion is bounded by explicit fuel; fuel exhaustion is a
model artifact with no source counterpart and is kept as a distinct
signal.  The expression layer covers the forms the claims exercise
(literals, resolved and global variable access and assignment, the
checked numeric operators, calls and lambdas); string concatenation,
comparisons and the object forms are embedded separately above.
-/

/-- The checked numeric binary operators MINUS, STAR and SLASH. -/
inductive ArithOp where
  | minus
  | star
  | slash
deriving Repr, DecidableEq

mutual

/-- Runtime values of the statement interpreter: the monostate, nullptr,
double and bool alternatives, and FlintFunction objects (declaration
parameters and body plus the captured closure environment). -/
inductive IVal where
  | nothing
  | null
  | num (x : Rat)
  | bool (b : Bool)
  | closure (params : List String) (body : List IStmt) (env : Nat)

/-- Expressions of the statement interpreter.  Variable and assignment
nodes carry the entry the resolver recorded for them in the locals table
(`Option.none` when the name was resolved to the globals). -/
inductive IExpr where
  | lit (v : IVal)
  | varRef (name : String) (depth : Option Nat)
  | assignVar (name : String) (depth : Option Nat) (value : IExpr)
  | binary (op : ArithOp) (left : IExpr) (right : IExpr)
  | call (callee : IExpr) (args : List IExpr)
  | lambda (params : List String) (body : List IStmt)

/-- Statements of the statement interpreter. -/
inductive IStmt where
  | expr (e : IExpr)
  | letDecl (decls : List (String × Option IExpr))
  | block (stmts : List IStmt)
  | ifStmt (cond : IExpr) (thenBranch : IStmt) (elseBranch : Option IStmt)
  | whileStmt (cond : IExpr) (body : IStmt)
  | funcDecl (name : String) (params : List String) (body : List IStmt)
  | ret (value : Option IExpr)
  | breakStmt
  | continueStmt
  | tryCatchContinue (body : IStmt)

end

/-- The out-of-band outcomes of executing a statement: BreakException,
ContinueException, ReturnException carrying its value, a thrown
RuntimeError, or exhaustion of the model fuel. -/
inductive Exn where
  | brk
  | cont
  | ret (v : IVal)
  | err (e : RuntimeErr)
  | fuelOut

/-- One environment record: its values map and the optional enclosing
environment pointer. -/
structure EnvData where
  values : List (String × IVal)
  enclosing : Option Nat

/-- Interpreter state: every environment record ever allocated (addressed
by index), the current-environment pointer, the globals pointer and the
isInsideLoop flag. -/
structure IState where
  heap : List EnvData
  envId : Nat
  globalsId : Nat
  insideLoop : Bool

/-- Read an environment record from the heap. -/
def heapGet (heap : List EnvData) (id : Nat) : EnvData :=
  heap.getD id ⟨[], Option.none⟩

/-- Write an environment record back to the heap. -/
def heapSet (heap : List EnvData) (id : Nat) (d : EnvData) : List EnvData :=
  heap.set id d

/-- Environment::define on the current environment of the state. -/
def defineInCurrent (s : IState) (name : String) (v : IVal) : IState :=
  let data := heapGet s.heap s.envId
  let data1 := { data with values := setAssoc data.values name v }
  { s with heap := heapSet s.heap s.envId data1 }

/-- Environment::ancestors: follow the enclosing pointer the given number
of times.  Walking past the outermost environment dereferences a null
shared_ptr in the source (undefined behaviour); the resolver never
produces such a distance, and the model then arbitrarily stays put. -/
def ancestorId (heap : List EnvData) (id : Nat) : Nat → Nat
  | 0 => id
  | d + 1 => ancestorId heap ((heapGet heap id).enclosing.getD id) d

/-- Whether a statement-interpreter value holds the nullptr or the
monostate alternative. -/
def isUninitSentinelI : IVal → Bool
  | .null => true
  | .nothing => true
  | _ => false

/-- Environment::getAt: jump to the ancestor at the resolved distance and
read values[name] there; operator[] yields a default-constructed
monostate value when the name is absent. -/
def getAt (s : IState) (distance : Nat) (name : String) : IVal :=
  (lookupAssoc (heapGet s.heap (ancestorId s.heap s.envId distance)).values name).getD .nothing

/-- Environment::assignAt: jump to the ancestor at the resolved distance
and write values[name] there. -/
def assignAt (s : IState) (distance : Nat) (name : String) (v : IVal) : IState :=
  let aid := ancestorId s.heap s.envId distance
  let data := heapGet s.heap aid
  let data1 := { data with values := setAssoc data.values name v }
  { s with heap := heapSet s.heap aid data1 }

/-- Environment::get on the heap representation, walking the enclosing
chain from the given environment.  The walk is bounded by explicit fuel;
every chain the interpreter builds is acyclic, so a fuel of the heap size
never runs out on reachable states. -/
def envGetHeap (heap : List EnvData) : Nat → Nat → String → Except RuntimeErr IVal
  | 0, _, name => .error ⟨"Unknown variable " ++ name ++ "."⟩
  | fuel + 1, id, name =>
    match lookupAssoc (heapGet heap id).values name with
    | some v =>
      if isUninitSentinelI v then
        .error ⟨"Variable " ++ name ++ " has no value assigned to it."⟩
      else .ok v
    | Option.none =>
      match (heapGet heap id).enclosing with
      | some p => envGetHeap heap fuel p name
      | Option.none => .error ⟨"Unknown variable " ++ name ++ "."⟩

/-- Environment::assign on the heap representation, walking the enclosing
chain from the given environment and writing the first scope that binds
the name. -/
def envAssignHeap (heap : List EnvData) :
    Nat → Nat → String → IVal → Except RuntimeErr (List EnvData)
  | 0, _, name, _ => .error ⟨"Undefined variable " ++ name ++ "."⟩
  | fuel + 1, id, name, v =>
    let data := heapGet heap id
    if (lookupAssoc data.values name).isSome then
      .ok (heapSet heap id { data with values := setAssoc data.values name v })
    else
      match data.enclosing with
      | some p => envAssignHeap heap fuel p name v
      | Option.none => .error ⟨"Undefined variable " ++ name ++ "."⟩

/-- Evaluator::isTruthy of the statement interpreter, restricted to the
variants of IVal: monostate and nullptr are false, bool is itself, double
tests against 0.0, and a callable (always a non-null shared pointer) is
true. -/
def iIsTruthy : IVal → Bool
  | .nothing => false
  | .null => false
  | .bool b => b
  | .num x => decide (x ≠ 0)
  | .closure _ _ _ => true

/-- The MINUS, STAR and SLASH cases of the statement-interpreter
Evaluator::operator()(const Binary&): checkOperandType demands two
doubles, and SLASH additionally rejects a zero right operand. -/
def arithBinary (op : ArithOp) (left right : IVal) : Except RuntimeErr IVal :=
  match left, right with
  | .num a, .num b =>
    match op with
    | .minus => .ok (.num (a - b))
    | .star => .ok (.num (a * b))
    | .slash =>
      if b = 0 then .error ⟨"Division by zero is undefined."⟩
      else .ok (.num (a / b))
  | _, _ => .error ⟨"Invalid operand type, operands must be numbers."⟩

/-- Bind the call arguments to the parameter names with repeated
Environment::define. -/
def bindParams (params : List String) (args : List IVal) :
    List (String × IVal) :=
  (params.zip args).foldl (fun m pa => setAssoc m pa.1 pa.2) []

mutual

/-- Evaluator::evaluate for the statement interpreter.  Literals return
their value; a variable or assignment with a locals-table entry uses
getAt/assignAt at that depth and otherwise goes through globals
get/assign; binary applies the checked numeric operator; call evaluates
the callee, then the arguments left to right, rejects non-callables and
arity mismatches, and runs the function; lambda captures the current
environment. -/
def evalExpr : Nat → IState → IExpr → IState × Except Exn IVal
  | 0, s, _ => (s, .error .fuelOut)
  | fuel + 1, s, e =>
    match e with
    | .lit v => (s, .ok v)
    | .varRef name depth =>
      match depth with
      | some d => (s, .ok (getAt s d name))
      | Option.none =>
        match envGetHeap s.heap s.heap.length s.globalsId name with
        | .ok v => (s, .ok v)
        | .error er => (s, .error (.err er))
    | .assignVar name depth value =>
      match evalExpr fuel s value with
      | (s1, .ok v) =>
        match depth with
        | some d => (assignAt s1 d name v, .ok v)
        | Option.none =>
          match envAssignHeap s1.heap s1.heap.length s1.globalsId name v with
          | .ok heap2 => ({ s1 with heap := heap2 }, .ok v)
          | .error er => (s1, .error (.err er))
      | r => r
    | .binary op l r =>
      match evalExpr fuel s l with
      | (s1, .ok lv) =>
        match evalExpr fuel s1 r with
        | (s2, .ok rv) =>
          match arithBinary op lv rv with
          | .ok v => (s2, .ok v)
          | .error er => (s2, .error (.err er))
        | r2 => r2
      | r1 => r1
    | .call callee args =>
      match evalExpr fuel s callee with
      | (s1, .ok cv) =>
        match evalArgs fuel s1 args with
        | (s2, .ok vs) =>
          match cv with
          | .closure params body envRef =>
            if params.length = vs.length then
              callClosure fuel s2 params body envRef vs
            else
              (s2, .error (.err ⟨"Function expects " ++ toString params.length ++
                " arguments but got " ++ toString vs.length⟩))
          | _ =>
            (s2, .error (.err
              ⟨"Call to other types except classes and functions is not valid!"⟩))
        | (s2, .error ex) => (s2, .error ex)
      | r1 => r1
    | .lambda params body => (s, .ok (.closure params body s.envId))

/-- Left-to-right evaluation of the argument expressions of a call. -/
def evalArgs : Nat → IState → List IExpr → IState × Except Exn (List IVal)
  | 0, s, _ => (s, .error .fuelOut)
  | _ + 1, s, [] => (s, .ok [])
  | fuel + 1, s, a :: rest =>
    match evalExpr fuel s a with
    | (s1, .ok v) =>
      match evalArgs fuel s1 rest with
      | (s2, .ok vs) => (s2, .ok (v :: vs))
      | (s2, .error ex) => (s2, .error ex)
    | (s1, .error ex) => (s1, .error ex)

/-- FlintFunction::call: allocate a fresh environment enclosing the
closure, define the parameters in it, execute the body through
executeBlock, catch only the return signal (returning its value), and
return nullptr when the body falls through.  Every other exception,
in particular a RuntimeError, propagates to the caller. -/
def callClosure :
    Nat → IState → List String → List IStmt → Nat → List IVal →
    IState × Except Exn IVal
  | 0, s, _, _, _, _ => (s, .error .fuelOut)
  | fuel + 1, s, params, body, closureEnv, args =>
    let newId := s.heap.length
    let s1 := { s with heap := s.heap ++ [⟨bindParams params args, some closureEnv⟩] }
    match executeBlock fuel s1 body newId with
    | (s2, some (.ret v)) => (s2, .ok v)
    | (s2, some ex) => (s2, .error ex)
    | (s2, Option.none) => (s2, .ok .null)

/-- Interpreter::executeBlock: remember the current-environment pointer,
switch to the new environment, run the statements, and restore the saved
pointer on every exit path (the source restores it both after normal
completion and inside catch(...) before rethrowing). -/
def executeBlock : Nat → IState → List IStmt → Nat → IState × Option Exn
  | 0, s, _, _ => (s, some Exn.fuelOut)
  | fuel + 1, s, stmts, newEnv =>
    let previous := s.envId
    match execStmts fuel { s with envId := newEnv } stmts with
    | (s1, r) => ({ s1 with envId := previous }, r)

/-- Sequential execution of a statement list; the first exception aborts
the remaining statements. -/
def execStmts : Nat → IState → List IStmt → IState × Option Exn
  | 0, s, _ => (s, some Exn.fuelOut)
  | _ + 1, s, [] => (s, Option.none)
  | fuel + 1, s, st :: rest =>
    match execStmt fuel s st with
    | (s1, Option.none) => execStmts fuel s1 rest
    | r => r

/-- The statement visitors of Interpreter. -/
def execStmt : Nat → IState → IStmt → IState × Option Exn
  | 0, s, _ => (s, some Exn.fuelOut)
  | fuel + 1, s, st =>
    match st with
    | .expr e =>
      match evalExpr fuel s e with
      | (s1, .ok _) => (s1, Option.none)
      | (s1, .error ex) => (s1, some ex)
    | .letDecl decls => execLet fuel s decls
    | .block stmts =>
      let s1 := { s with heap := s.heap ++ [⟨[], some s.envId⟩] }
      executeBlock fuel s1 stmts s.heap.length
    | .ifStmt cond thenBranch elseBranch =>
      match evalExpr fuel s cond with
      | (s1, .ok v) =>
        if iIsTruthy v then execStmt fuel s1 thenBranch
        else
          match elseBranch with
          | some e2 => execStmt fuel s1 e2
          | Option.none => (s1, Option.none)
      | (s1, .error ex) => (s1, some ex)
    | .whileStmt cond body =>
      let prev := s.insideLoop
      match execWhile fuel { s with insideLoop := true } cond body with
      | (s1, Option.none) => ({ s1 with insideLoop := prev }, Option.none)
      | (s1, some ex) => (s1, some ex)
    | .funcDecl name params body =>
      (defineInCurrent s name (.closure params body s.envId), Option.none)
    | .ret value =>
      match value with
      | some e2 =>
        match evalExpr fuel s e2 with
        | (s1, .ok v) => (s1, some (.ret v))
        | (s1, .error ex) => (s1, some ex)
      | Option.none => (s, some (.ret .null))
    | .breakStmt =>
      if s.insideLoop then (s, some .brk)
      else (s, some (.err ⟨"Cannot use break outside of a loop"⟩))
    | .continueStmt =>
      if s.insideLoop then (s, some .cont)
      else (s, some (.err ⟨"Cannot use continue outside of a loop"⟩))
    | .tryCatchContinue body =>
      match execStmt fuel s body with
      | (s1, some .cont) => (s1, Option.none)
      | r => r

/-- The LetStmt visitor: each declaration evaluates its initializer (the
default value is nullptr) and defines the name in the current
environment. -/
def execLet : Nat → IState → List (String × Option IExpr) → IState × Option Exn
  | 0, s, _ => (s, some Exn.fuelOut)
  | _ + 1, s, [] => (s, Option.none)
  | fuel + 1, s, (name, init) :: rest =>
    match init with
    | Option.none => execLet fuel (defineInCurrent s name .null) rest
    | some e2 =>
      match evalExpr fuel s e2 with
      | (s1, .ok v) => execLet fuel (defineInCurrent s1 name v) rest
      | (s1, .error ex) => (s1, some ex)

/-- The loop of the WhileStmt visitor: re-evaluate the condition, run the
body, catch BreakException (exiting normally) and ContinueException
(resuming at the condition); every other exception propagates. -/
def execWhile : Nat → IState → IExpr → IStmt → IState × Option Exn
  | 0, s, _, _ => (s, some Exn.fuelOut)
  | fuel + 1, s, cond, body =>
    match evalExpr fuel s cond with
    | (s1, .error ex) => (s1, some ex)
    | (s1, .ok v) =>
      if iIsTruthy v then
        match execStmt fuel s1 body with
        | (s2, Option.none) => execWhile fuel s2 cond body
        | (s2, some .brk) => (s2, Option.none)
        | (s2, some .cont) => execWhile fuel s2 cond body
        | (s2, some ex) => (s2, some ex)
      else (s1, Option.none)

end

/-- Interpreter::interpret: each top-level statement executes inside a
try/catch that catches only RuntimeError; a caught error is reported
through Flint::runtimeError and execution continues with the next
statement.  The reported errors are collected in order; an uncaught
signal (which would escape interpret and terminate the process) stops the
run and is surfaced in the third component. -/
def interpret : Nat → IState → List IStmt → IState × List RuntimeErr × Option Exn
  | _, s, [] => (s, [], Option.none)
  | fuel, s, st :: rest =>
    match execStmt fuel s st with
    | (s1, Option.none) => interpret fuel s1 rest
    | (s1, some (.err e)) =>
      match interpret fuel s1 rest with
      | (s2, reports, ab) => (s2, e :: reports, ab)
    | (s1, some ex) => (s1, [], some ex)

/-- Parser::forStatement: the desugaring of
for (initStmt; cond; incr) body into while form.  When an increment is
present the loop body becomes a block of the TryCatchContinue-wrapped
body followed by the increment expression statement; otherwise the
wrapped body alone.  An omitted condition defaults to the literal true,
and a present initializing statement wraps everything in an enclosing
block. -/
def forStatementDesugar (initStmt : Option IStmt) (cond : Option IExpr)
    (incr : Option IExpr) (body : IStmt) : IStmt :=
  let body1 :=
    match incr with
    | some inc => IStmt.block [IStmt.tryCatchContinue body, IStmt.expr inc]
    | Option.none => IStmt.tryCatchContinue body
  let cond1 :=
    match cond with
    | some c => c
    | Option.none => IExpr.lit (IVal.bool true)
  let body2 := IStmt.whileStmt cond1 body1
  match initStmt with
  | some ini => IStmt.block [ini, body2]
  | Option.none => body2

/-! Helper lemmas shared by the claim theorems. -/

/-- Looking up a name right after setting it finds the new value. -/
theorem lookupAssoc_set {α : Type} (m : List (String × α)) (name : String)
    (v : α) : lookupAssoc (setAssoc m name v) name = some v := by
  induction m with
  | nil => simp [setAssoc, lookupAssoc]
  | cons hd tl ih =>
    obtain ⟨k, w⟩ := hd
    by_cases h : k = name
    · simp [setAssoc, lookupAssoc, h]
    · simp [setAssoc, lookupAssoc, h, ih]

/-- Popping an array that ends in v yields v and drops exactly that
element. -/
theorem flintArrayPop_concat (xs : List Value) (v : Value) :
    flintArrayPop (xs ++ [v]) [] = (xs, .ok v) := by
  cases xs with
  | nil => simp [flintArrayPop]
  | cons x tl =>
    simp only [List.cons_append, flintArrayPop]
    rw [Prod.mk.injEq]
    refine ⟨?_, ?_⟩
    · show ((x :: tl) ++ [v]).dropLast = x :: tl
      exact List.dropLast_concat
    · rw [Except.ok.injEq]
      show ((x :: tl) ++ [v]).getLast (by simp) = v
      exact List.getLast_concat _

/-! Theorems settling the claims. -/

/-- C1 counterexample: evaluating the binary comparison of the string
literals "a" and "b" with operator < raises a RuntimeError (carrying the
default-constructed empty message), because string literals evaluate to
shared FlintString objects and the comparison switch only accepts two raw
std::string operands. -/
theorem c1_string_comparison_raises :
    evalCompareOfLiterals .less (.str "a") (.str "b") = .error ⟨""⟩ := rfl

/-- C1 (amended): for the comparison operators, two numbers yield their
boolean ordering and two raw std::string operands yield their
lexicographic ordering; but a string literal evaluates to a shared
FlintString object, so a comparison of two evaluated string literals
raises a RuntimeError, as does every other operand combination. -/
theorem c1_comparison_semantics (op : CompOp) (x y : Rat) (s t : String)
    (l r : Value) :
    compBinary op (.num x) (.num y) = .ok (.bool (numOrder op x y))
  ∧ compBinary op (.str s) (.str t) = .ok (.bool (strOrder op s t))
  ∧ evalLiteral (.str s) = .flintString s
  ∧ evalCompareOfLiterals op (.str s) (.str t) = .error ⟨""⟩
  ∧ (bothNum l r = false → bothRawStr l r = false →
      compBinary op l r = .error ⟨""⟩) := by
  refine ⟨?_, ?_, rfl, ?_, ?_⟩
  · cases op <;> rfl
  · cases op <;> rfl
  · cases op <;> rfl
  · intro h1 h2
    cases op <;> cases l <;> cases r <;>
      simp_all [bothNum, bothRawStr, compBinary]

/-- Witness for c1_comparison_semantics: its final conjunct applied to a
boolean and a null operand. -/
theorem c1_comparison_semantics_witness :
    compBinary .less (.bool true) .null = .error ⟨""⟩ :=
  (c1_comparison_semantics .less 0 0 "" "" (.bool true) .null).2.2.2.2 rfl rfl

/-- C2 counterexample: the empty string literal evaluates to a shared
FlintString object, which isTruthy sends to the fallback returning true,
so a condition holding the empty string takes the TRUE branch. -/
theorem c2_empty_string_literal_truthy :
    isTruthy (evalLiteral (.str "")) = true := rfl

/-- C2 (amended): a value is falsy exactly when it is monostate, nullptr,
false, the number 0 or an empty RAW std::string; every object value is
truthy, and in particular every evaluated string literal is a FlintString
object and hence truthy, even when empty. -/
theorem c2_truthiness_semantics (v : Value) (s : String) :
    (isTruthy v = false ↔
      (v = .nothing ∨ v = .null ∨ v = .bool false ∨ v = .num 0 ∨
        v = .str ""))
  ∧ isTruthy (evalLiteral (.str s)) = true := by
  refine ⟨?_, rfl⟩
  cases v <;> simp [isTruthy, String.isEmpty_iff]

/-- C3 counterexample: a value-less return statement resolved inside a
method named init still produces the initializer diagnostic. -/
theorem c3_valueless_return_in_init_flagged :
    resolveReturnStmt (methodFunctionType "init") false =
      [ReturnDiag.returnFromInit] := rfl

/-- C3 (amended): the resolver reports a return diagnostic exactly when
the return occurs outside any function or inside an initializer (a method
named init), regardless of whether the return carries a value. -/
theorem c3_return_diagnostics (cf : FunctionType) (b : Bool)
    (name : String) :
    (resolveReturnStmt cf b ≠ [] ↔ (cf = .none ∨ cf = .initMethod))
  ∧ resolveReturnStmt cf b = resolveReturnStmt cf true
  ∧ (methodFunctionType name = .initMethod ↔ name = "init") := by
  refine ⟨?_, rfl, ?_⟩
  · cases cf <;> simp [resolveReturnStmt]
  · unfold methodFunctionType
    by_cases h : name = "init" <;> simp [h]

/-- C4: forStatement desugars to the block/while/TryCatchContinue shape,
and the TryCatchContinue wrapper consumes a continue signal raised in the
body, so the increment statement that follows it in the while body still
executes. -/
theorem c4_for_desugaring (ini : IStmt) (c inc : IExpr) (body : IStmt)
    (fuel : Nat) (s s2 : IState) :
    forStatementDesugar (some ini) (some c) (some inc) body =
      .block [ini, .whileStmt c (.block [.tryCatchContinue body, .expr inc])]
  ∧ forStatementDesugar Option.none (some c) (some inc) body =
      .whileStmt c (.block [.tryCatchContinue body, .expr inc])
  ∧ forStatementDesugar (some ini) (some c) Option.none body =
      .block [ini, .whileStmt c (.tryCatchContinue body)]
  ∧ forStatementDesugar Option.none Option.none Option.none body =
      .whileStmt (.lit (.bool true)) (.tryCatchContinue body)
  ∧ (execStmt fuel s body = (s2, some Exn.cont) →
      execStmt (fuel + 1) s (.tryCatchContinue body) = (s2, Option.none))
  ∧ (execStmt fuel s body = (s2, some Exn.cont) →
      execStmts (fuel + 2) s [.tryCatchContinue body, .expr inc] =
        execStmts (fuel + 1) s2 [.expr inc]) := by
  refine ⟨rfl, rfl, rfl, rfl, ?_, ?_⟩
  · intro h
    simp [execStmt, h]
  · intro h
    simp [execStmts, execStmt, h]

/-- Witness for c4_for_desugaring: a continue statement inside a loop
signals continue, and the wrapped sequence proceeds to the increment. -/
theorem c4_for_desugaring_witness :
    execStmts 3 ⟨[⟨[], Option.none⟩], 0, 0, true⟩
        [.tryCatchContinue .continueStmt, .expr (.lit .null)] =
      execStmts 2 ⟨[⟨[], Option.none⟩], 0, 0, true⟩ [.expr (.lit .null)] :=
  (c4_for_desugaring .breakStmt (.lit .null) (.lit .null) .continueStmt 1
    ⟨[⟨[], Option.none⟩], 0, 0, true⟩
    ⟨[⟨[], Option.none⟩], 0, 0, true⟩).2.2.2.2.2 rfl

/-- C5: executeBlock restores the previously current environment pointer
on every exit path, and the outcome signal (normal, RuntimeError, break,
continue or return) is propagated unchanged after the restore. -/
theorem c5_executeBlock_restores_env (fuel : Nat) (s : IState)
    (stmts : List IStmt) (newEnv : Nat) :
    (executeBlock fuel s stmts newEnv).1.envId = s.envId
  ∧ (executeBlock (fuel + 1) s stmts newEnv).2 =
      (execStmts fuel { s with envId := newEnv } stmts).2 := by
  constructor
  · cases fuel with
    | zero => rfl
    | succ f =>
      rcases h : execStmts f { s with envId := newEnv } stmts with ⟨s1, r⟩
      simp [executeBlock, h]
  · rcases h : execStmts fuel { s with envId := newEnv } stmts with ⟨s1, r⟩
    simp [executeBlock, h]

/-- C6: evaluation of Chunk::writeConstant at the failing constant index
256.  The LEFT shifts of the source zero the middle and high operand
bytes, the disassembler decoding then recovers 0 instead of 256, while
the intended little-endian bytes [0, 1, 0] would decode back to 256; the
short encoding below 256 is correct. -/
theorem c6_writeConstant_long_bug :
    writeConstantBytes 256 = [opConstantLong, 0, 0, 0]
  ∧ decodeLongOperand 0 0 0 = 0
  ∧ specLongBytes 256 = [0, 1, 0]
  ∧ decodeLongOperand 0 1 0 = 256
  ∧ writeConstantBytes 256 ≠ opConstantLong :: specLongBytes 256
  ∧ writeConstantBytes 255 = [opConstant, 255] := by
  refine ⟨rfl, rfl, rfl, rfl, ?_, rfl⟩
  decide

/-- C7: interpret catches a RuntimeError escaping one top-level statement,
reports it exactly once and continues with the remaining statements; a
statement that completes normally adds no report; and FlintFunction::call
catches only the return signal, so a RuntimeError thrown anywhere in a
called function body propagates out of the call unchanged. -/
theorem c7_interpret_error_recovery (fuel : Nat) (s s1 s2 : IState)
    (st : IStmt) (rest : List IStmt) (e : RuntimeErr)
    (params : List String) (body : List IStmt) (cEnv : Nat)
    (args : List IVal) :
    (execStmt fuel s st = (s1, some (.err e)) →
      interpret fuel s (st :: rest) =
        ((interpret fuel s1 rest).1, e :: (interpret fuel s1 rest).2.1,
          (interpret fuel s1 rest).2.2))
  ∧ (execStmt fuel s st = (s1, Option.none) →
      interpret fuel s (st :: rest) = interpret fuel s1 rest)
  ∧ (executeBlock fuel
        { s with heap := s.heap ++ [⟨bindParams params args, some cEnv⟩] }
        body s.heap.length = (s2, some (.err e)) →
      callClosure (fuel + 1) s params body cEnv args =
        (s2, .error (.err e))) := by
  refine ⟨?_, ?_, ?_⟩
  · intro h
    rcases hr : interpret fuel s1 rest with ⟨s3, reports, ab⟩
    simp [interpret, h, hr]
  · intro h
    simp [interpret, h]
  · intro h
    simp [callClosure, h]

/-- Witness for c7_interpret_error_recovery: a division by zero in the
first top-level statement is reported and the next statement still
runs. -/
theorem c7_interpret_error_recovery_witness :
    interpret 5 ⟨[⟨[], Option.none⟩], 0, 0, false⟩
        [.expr (.binary .slash (.lit (.num 1)) (.lit (.num 0))),
          .expr (.lit .null)] =
      ((interpret 5 ⟨[⟨[], Option.none⟩], 0, 0, false⟩ [.expr (.lit .null)]).1,
        RuntimeErr.mk "Division by zero is undefined." ::
          (interpret 5 ⟨[⟨[], Option.none⟩], 0, 0, false⟩ [.expr (.lit .null)]).2.1,
        (interpret 5 ⟨[⟨[], Option.none⟩], 0, 0, false⟩ [.expr (.lit .null)]).2.2) :=
  (c7_interpret_error_recovery 5 ⟨[⟨[], Option.none⟩], 0, 0, false⟩
    ⟨[⟨[], Option.none⟩], 0, 0, false⟩ ⟨[⟨[], Option.none⟩], 0, 0, false⟩
    (.expr (.binary .slash (.lit (.num 1)) (.lit (.num 0))))
    [.expr (.lit .null)] ⟨"Division by zero is undefined."⟩ [] [] 0 []).1 rfl

/-- C8: evaluation of Scanner::string() at the failing inputs.  A lone
opening quote at end of input emits an empty STRING token with no error,
and an escaped quote as the last source character likewise emits a token
with no error, because the post-loop check inspects the raw previous
character; a genuinely unclosed tail and an unescaped newline are
reported as the claim states, and a properly closed string tokenizes. -/
theorem c8_scanner_string_bug :
    scanString [] = { token := some "", errors := [] }
  ∧ scanString [Char.ofNat 97, bsl, dq] =
      { token := some (String.mk [Char.ofNat 97, dq]), errors := [] }
  ∧ scanString [Char.ofNat 97] =
      { token := Option.none, errors := ["Unterminated string."] }
  ∧ scanString [Char.ofNat 97, nl, Char.ofNat 98] =
      { token := Option.none,
        errors := ["Unterminated string (newline encountered)."] }
  ∧ scanString [Char.ofNat 97, dq] =
      { token := some (String.mk [Char.ofNat 97]), errors := [] } := by
  refine ⟨?_, ?_, ?_, ?_, ?_⟩ <;> decide

/-- C9: Environment::get raises a RuntimeError whenever the binding it
finds holds the monostate or nullptr alternative: after defining a name
to such a value, after assigning such a value to a visible name, and
whenever the current scope binds the name to such a value. -/
theorem c9_env_get_sentinel (env : Env) (name : String) (v : Value)
    (hv : isUninitSentinel v = true) :
    ((env.define name v).get name) =
      .error ⟨"Variable " ++ name ++ " has no value assigned to it."⟩
  ∧ (lookupAssoc env.values name = some v →
      env.get name =
        .error ⟨"Variable " ++ name ++ " has no value assigned to it."⟩)
  ∧ (∀ env2, env.assign name v = .ok env2 →
      env2.get name =
        .error ⟨"Variable " ++ name ++ " has no value assigned to it."⟩) := by
  refine ⟨?_, ?_, ?_⟩
  · cases env <;>
      simp [Env.define, Env.withValues, Env.values, Env.get,
        lookupAssoc_set, hv]
  · intro h
    cases env <;> simp [Env.get, Env.values] at h ⊢ <;> simp [h, hv]
  · induction env with
    | root vs =>
      intro env2 h
      by_cases hm : (lookupAssoc vs name).isSome <;>
        simp [Env.assign, hm] at h
      subst h
      simp [Env.get, lookupAssoc_set, hv]
    | child vs enc ih =>
      intro env2 h
      by_cases hm : (lookupAssoc vs name).isSome
      · simp [Env.assign, hm] at h
        subst h
        simp [Env.get, lookupAssoc_set, hv]
      · simp [Env.assign, hm, Except.map] at h
        rcases ha : enc.assign name v with e | env3 <;> rw [ha] at h <;>
          simp at h
        subst h
        have hnone : lookupAssoc vs name = Option.none := by
          cases hl : lookupAssoc vs name with
          | none => rfl
          | some w => rw [hl] at hm; simp at hm
        simp [Env.get, hnone]
        exact ih env3 ha

/-- Witness for c9_env_get_sentinel: defining x as nothing and reading it
back raises. -/
theorem c9_env_get_sentinel_witness :
    ((Env.root []).define "x" .null).get "x" =
      .error ⟨"Variable x has no value assigned to it."⟩ :=
  (c9_env_get_sentinel (.root []) "x" .null rfl).1

/-- C10: pop() on an empty array raises a RuntimeError and leaves the
contents unchanged; on a non-empty array it removes exactly the last
element and returns it. -/
theorem c10_array_pop (elements : List Value) (v : Value) :
    flintArrayPop [] [] = ([], .error ⟨"Cannot pop from empty array."⟩)
  ∧ flintArrayPop (elements ++ [v]) [] = (elements, .ok v) :=
  ⟨rfl, flintArrayPop_concat elements v⟩

end Flint
